import Mathlib

/-!
Shallow embedding of the mangOH RedSensorToCloud telemetry pipeline.

Part A embeds `src/avPublisherComponent/avPublisher.c`: the periodic
sample-timer handler (`SampleTimerHandler`), its per-sensor change
detection (`*Threshold` functions), the staleness sweep and the
aggregate publish scheduler.

Part B embeds `src/components/avPublisher/avPublisher.c`: the
per-channel asynchronous delivery state machine
(`HandleNumericUpdate`/`HandleJsonUpdate`, `HandleAvPushComplete`,
`PushBacklog`, `PushNumeric`, `PushJson`).

Conventions: C `uint64_t` millisecond timestamps are `Nat` with
explicit wraparound subtraction (`sub64`); C `double` values are
modelled as exact rationals (the operations used - subtraction,
absolute value, comparison - are the exact-arithmetic ones); `int32_t`
light levels are `Int`.  External calls (sensor reads, record/push
results, Data Hub buffer queries, JSON decoding) are inputs supplied
by an environment argument, mirroring the result codes the C code
branches on.
-/

/-! ### Part A: avPublisherComponent - data model -/

/-- `uint64_t` subtraction `a - b` with wraparound, as the C code computes
`now - it->lastTimeRecorded` on `uint64_t` operands. -/
def sub64 (a b : Nat) : Nat :=
  (2 ^ 64 + a % 2 ^ 64 - b % 2 ^ 64) % 2 ^ 64

/-- When `b ≤ a < 2^64`, the wrapped subtraction is ordinary subtraction. -/
theorem sub64_eq_sub (a b : Nat) (hb : b ≤ a) (ha : a < 2 ^ 64) :
    sub64 a b = a - b := by
  have hb64 : b < 2 ^ 64 := lt_of_le_of_lt hb ha
  unfold sub64
  rw [Nat.mod_eq_of_lt ha, Nat.mod_eq_of_lt hb64]
  have h1 : 2 ^ 64 + a - b = 2 ^ 64 + (a - b) := by omega
  rw [h1, Nat.add_mod_left]
  exact Nat.mod_eq_of_lt (by omega)

-- Wait time between each round of sensor readings (seconds), `DelayBetweenReadings`.
def DelayBetweenReadings : Nat := 1

-- `MaxIntervalBetweenPublish` (seconds).
def MaxIntervalBetweenPublish : Nat := 120

-- `MinIntervalBetweenPublish` (seconds).
def MinIntervalBetweenPublish : Nat := 10

-- `TimeToStale` (seconds).
def TimeToStale : Nat := 60

/-- The five entries of the `Items[]` array, by name. -/
inductive SensorKind where
  | light
  | pressure
  | temperature
  | accel
  | gyro
deriving DecidableEq, Repr

/-- A sensor value: `int32_t` light level, `double` scalar, or a 3-component
`struct Acceleration` / `struct Gyro`. -/
inductive Value where
  | intV (v : Int)
  | floatV (v : ℚ)
  | vecV (x y z : ℚ)
deriving DecidableEq, Repr

/-- The IEEE-754 `double` nearest to π (C's `M_PI`), as an exact rational:
`884279719003555 / 2^48`. -/
def piDouble : ℚ := 884279719003555 / 281474976710656

/-- The `thresholdCheck` member of each `Items[]` entry.  The first value
argument is the one the caller passes first (`it->lastValueRead`), the second
is `it->lastValueRecorded`.
  * light: `abs(*v1 - *v2) > 200` (`LightSensorThreshold`);
  * pressure: `fabs(*v1 - *v2) > 1.0` (`PressureSensorThreshold`);
  * temperature: `fabs(*v1 - *v2) > 2.0` (`TemperatureSensorThreshold`);
  * accel: `sqrt(Δx²+Δy²+Δz²) > 4.9` (`AccelerometerThreshold`), expressed
    squared (for nonnegative radicand, `sqrt s > c ↔ s > c²`);
  * gyro: `sqrt(Δx²+Δy²+Δz²) > M_PI/2` (`GyroThreshold`), likewise squared.
Value shapes never mismatch in the C program (each entry's function pointers
agree on one shape); a mismatch here returns `false`. -/
def thresholdCheck : SensorKind → Value → Value → Bool
  | .light, .intV a, .intV b => 200 < (a - b).natAbs
  | .pressure, .floatV a, .floatV b => 1 < |a - b|
  | .temperature, .floatV a, .floatV b => 2 < |a - b|
  | .accel, .vecV x₁ y₁ z₁, .vecV x₂ y₂ z₂ =>
      (49 / 10 : ℚ) ^ 2 < (x₁ - x₂) ^ 2 + (y₁ - y₂) ^ 2 + (z₁ - z₂) ^ 2
  | .gyro, .vecV x₁ y₁ z₁, .vecV x₂ y₂ z₂ =>
      (piDouble / 2) ^ 2 < (x₁ - x₂) ^ 2 + (y₁ - y₂) ^ 2 + (z₁ - z₂) ^ 2
  | _, _, _ => false

/-- One entry of the `Items[]` array: its kind plus the mutable per-item
state (`lastValueRead`, `lastValueRecorded`, `lastTimeRead`,
`lastTimeRecorded`). -/
structure ItemState where
  kind : SensorKind
  lastValueRead : Value
  lastValueRecorded : Value
  lastTimeRead : Nat
  lastTimeRecorded : Nat
deriving DecidableEq, Repr

/-- Environment inputs for one item during one timer tick: the outcome of
`it->read()` (`none` = failure, `some v` = `LE_OK` with value `v`), whether
the `it->record()` call in the threshold path returns `LE_OK`, and whether
the `it->record()` call in the staleness sweep returns `LE_OK`. -/
structure ItemEnv where
  readResult : Option Value
  recordOk : Bool
  staleRecordOk : Bool
deriving Repr

/-- The read / change-detection / record step for one item in the
`SampleTimerHandler` loop (the body guarded by `r == LE_OK`).  Returns the
updated item and whether this item set `publish = true` via a successful
record (the sentinel `lastTimeRecorded == 0` forces recording, otherwise
`thresholdCheck(lastValueRead, lastValueRecorded)` decides). -/
def processItemRead (now : Nat) (env : ItemEnv) (it : ItemState) : ItemState × Bool :=
  match env.readResult with
  | none => (it, false)
  | some v =>
    let it := { it with lastValueRead := v, lastTimeRead := now }
    if it.lastTimeRecorded == 0 || thresholdCheck it.kind it.lastValueRead it.lastValueRecorded then
      if env.recordOk then
        ({ it with lastValueRecorded := it.lastValueRead }, true)
      else
        (it, false)
    else
      (it, false)

/-- The forced-publish check at the bottom of the loop body:
`(now - it->lastTimeRecorded) > MaxIntervalBetweenPublish * 1000 &&
it->lastTimeRead > LastTimePublished`.  Evaluated on the item state as
updated by this iteration's read. -/
def itemForcesPublish (now lastTimePublished : Nat) (it : ItemState) : Bool :=
  decide (MaxIntervalBetweenPublish * 1000 < sub64 now it.lastTimeRecorded) &&
    decide (lastTimePublished < it.lastTimeRead)

/-- One full iteration of the reading loop: item update plus this item's
contribution to the `publish` flag. -/
def loopStep (now lastTimePublished : Nat) (env : ItemEnv) (it : ItemState) :
    ItemState × Bool :=
  let r := processItemRead now env it
  (r.1, r.2 || itemForcesPublish now lastTimePublished r.1)

/-- The whole reading loop over `Items[]` (the environment supplies the
per-index inputs). -/
def loopRun (now lastTimePublished : Nat) (envs : Nat → ItemEnv)
    (items : List ItemState) : List (ItemState × Bool) :=
  items.mapIdx fun i it => loopStep now lastTimePublished (envs i) it

/-- The staleness-sweep body for one item: if
`(now - it->lastTimeRecorded) > TimeToStale * 1000` and
`it->lastTimeRead > it->lastTimeRecorded`, record the current reading
(`it->record(RecordRef, it->lastTimeRead, it->lastValueRead)`); on `LE_OK`
copy the read value into `lastValueRecorded` and set
`lastTimeRecorded = lastTimeRead`. -/
def sweepItem (now : Nat) (recordOk : Bool) (it : ItemState) : ItemState :=
  if TimeToStale * 1000 < sub64 now it.lastTimeRecorded ∧
      it.lastTimeRecorded < it.lastTimeRead then
    if recordOk then
      { it with lastValueRecorded := it.lastValueRead,
                lastTimeRecorded := it.lastTimeRead }
    else it
  else it

/-- The scheduler's global state: the `Items[]` array contents plus
`DeferredPublish` and `LastTimePublished`. -/
structure PubState where
  items : List ItemState
  deferredPublish : Bool
  lastTimePublished : Nat
deriving DecidableEq, Repr

/-- `SampleTimerHandler`.  `pushOk` is whether `le_avdata_PushRecord`
returns `LE_OK`.  The returned `Bool` reports whether the push was
attempted this tick.  Note the guard on the minimum publish interval is
translated exactly as written at the source: `(now - LastTimePublished) <
MinIntervalBetweenPublish`, with no `* 1000` scaling (unlike the
`MaxIntervalBetweenPublish` and `TimeToStale` comparisons). -/
def sampleTimerHandler (now : Nat) (envs : Nat → ItemEnv) (pushOk : Bool)
    (s : PubState) : PubState × Bool :=
  let run := loopRun now s.lastTimePublished envs s.items
  let items₁ := run.map Prod.fst
  let publish := run.any Prod.snd
  if publish || s.deferredPublish then
    if sub64 now s.lastTimePublished < MinIntervalBetweenPublish then
      ({ s with items := items₁, deferredPublish := true }, false)
    else
      let items₂ := items₁.mapIdx fun i it => sweepItem now (envs i).staleRecordOk it
      if pushOk then
        ({ items := items₂, deferredPublish := false, lastTimePublished := now }, true)
      else
        ({ s with items := items₂ }, true)
  else
    ({ s with items := items₁ }, false)

/-- The items as initialized in the C file: `lastTimeRead = 0`,
`lastTimeRecorded = 0`, values pointing at the zero-initialized
`SensorData` struct. -/
def initialItems : List ItemState :=
  [ { kind := .light, lastValueRead := .intV 0, lastValueRecorded := .intV 0,
      lastTimeRead := 0, lastTimeRecorded := 0 },
    { kind := .pressure, lastValueRead := .floatV 0, lastValueRecorded := .floatV 0,
      lastTimeRead := 0, lastTimeRecorded := 0 },
    { kind := .temperature, lastValueRead := .floatV 0, lastValueRecorded := .floatV 0,
      lastTimeRead := 0, lastTimeRecorded := 0 },
    { kind := .accel, lastValueRead := .vecV 0 0 0, lastValueRecorded := .vecV 0 0 0,
      lastTimeRead := 0, lastTimeRecorded := 0 },
    { kind := .gyro, lastValueRead := .vecV 0 0 0, lastValueRecorded := .vecV 0 0 0,
      lastTimeRead := 0, lastTimeRecorded := 0 } ]

/-- One tick's worth of environment inputs. -/
structure TickInput where
  now : Nat
  envs : Nat → ItemEnv
  pushOk : Bool

/-- A run of successive `SampleTimerHandler` invocations. -/
def runTicks (ticks : List TickInput) (s : PubState) : PubState :=
  ticks.foldl (fun acc t => (sampleTimerHandler t.now t.envs t.pushOk acc).1) s

/-! ### Part B: components/avPublisher - delivery state machine -/

/-- The `le_result_t` codes this component branches on. -/
inductive LeResult where
  | ok
  | busy
  | notFound
  | fault
  | formatError
  | overflow
deriving DecidableEq, Repr

/-- `le_avdata_PushStatus_t`. -/
inductive PushStatus where
  | success
  | failed
deriving DecidableEq, Repr

/-- The `state` member of `Sensor_t`. -/
inductive SensorState where
  | idle
  | pushing
  | backlogged
  | fault
deriving DecidableEq, Repr

/-- `Sensor_t`: per-channel cloud-push tracking record.  Timestamps are C
`double`s, modelled as exact rationals. -/
structure Sensor where
  lastDeliveredTimestamp : ℚ
  timestamp : ℚ
  state : SensorState
deriving DecidableEq, Repr

/-- Environment outcomes for one attempt to record-and-push a single sample:
whether JSON member extraction succeeds (`ExtractNumber` returns non-NaN for
every member; only consulted for JSON channels), the combined result of the
`le_avdata_Record*` calls (first failure, `ok` when all succeed), and the
result of `le_avdata_PushRecord`. -/
structure PushEnv where
  decodeOk : Bool
  recordResult : LeResult
  pushResult : LeResult
deriving DecidableEq, Repr

/-- Result of `PushLightLevel` / `PushPressure` / `PushTemperature`: a record
failure is returned directly, otherwise the `le_avdata_PushRecord` result. -/
def pushSample (env : PushEnv) : LeResult :=
  if env.recordResult ≠ .ok then env.recordResult else env.pushResult

/-- Result of `PushAcceleration` / `PushAngularVelocity` / `PushPosition`:
a failed `ExtractNumber` makes the function return `LE_FAULT` before any
record call; otherwise as `pushSample`. -/
def pushJsonSample (env : PushEnv) : LeResult :=
  if ¬env.decodeOk then .fault else pushSample env

/-- `PushNumeric`: stores the pending `timestamp`, attempts the push, and on
any non-`LE_OK` result sets the state to `SENSOR_STATE_FAULT`.  The returned
`Bool` instruments whether an accepted push submission was made (a completion
callback for it will arrive later); modelled from the spec's sink interface, a
submission is accepted exactly when `le_avdata_PushRecord` returns `LE_OK`. -/
def PushNumeric (env : PushEnv) (t : ℚ) (s : Sensor) : Sensor × Bool :=
  let s := { s with timestamp := t }
  let r := pushSample env
  (if r ≠ .ok then { s with state := .fault } else s, r == .ok)

/-- `PushJson`: stores the pending `timestamp` and attempts the push.  On
`LE_FORMAT_ERROR` the sample is discarded: `lastDeliveredTimestamp` advances
to its timestamp and a `PUSHING` state returns to `IDLE`.  Then (for any
non-`LE_OK` result, `LE_FORMAT_ERROR` included) the state is set to
`SENSOR_STATE_FAULT`. -/
def PushJson (env : PushEnv) (t : ℚ) (s : Sensor) : Sensor × Bool :=
  let s := { s with timestamp := t }
  let r := pushJsonSample env
  let s :=
    if r = .formatError then
      let s := { s with lastDeliveredTimestamp := t }
      if s.state = .pushing then { s with state := .idle } else s
    else s
  (if r ≠ .ok then { s with state := .fault } else s, r == .ok)

/-- Result of one Data Hub buffer query
(`dhubQuery_ReadBufferSample{Json,Numeric}`): the oldest buffered sample
newer than the passed timestamp (carrying its timestamp and the push
outcomes for its value), `LE_NOT_FOUND`, or an unexpected result code. -/
inductive QueryResult where
  | found (ts : ℚ) (env : PushEnv)
  | notFound
  | queryError

/-- `PushBacklog`: query the Data Hub observation buffer for the oldest
sample newer than `lastDeliveredTimestamp`; push it if found, go `IDLE` on
`LE_NOT_FOUND`, and only log on any other result.  `store` is the
environment's buffer-query oracle for this call; `isJson` selects the JSON
channels (accelerometer, gyro, position) versus the numeric ones (light,
pressure, temperature). -/
def PushBacklog (isJson : Bool) (store : ℚ → QueryResult) (s : Sensor) :
    Sensor × Bool :=
  match store s.lastDeliveredTimestamp with
  | .found ts env => if isJson then PushJson env ts s else PushNumeric env ts s
  | .notFound => ({ s with state := .idle }, false)
  | .queryError => (s, false)

/-- `HandleAvPushComplete`: on `LE_AVDATA_PUSH_SUCCESS`, remember the pending
timestamp as delivered and, only when `BACKLOGGED`, push more from the
backlog; on `LE_AVDATA_PUSH_FAILED`, retry via `PushBacklog`. -/
def HandleAvPushComplete (isJson : Bool) (status : PushStatus)
    (store : ℚ → QueryResult) (s : Sensor) : Sensor × Bool :=
  match status with
  | .success =>
    let s := { s with lastDeliveredTimestamp := s.timestamp }
    if s.state = .backlogged then PushBacklog isJson store s else (s, false)
  | .failed => PushBacklog isJson store s

/-- `HandleNumericUpdate` / `HandleJsonUpdate` (they differ only in which
push helper the `IDLE` case calls): `IDLE` starts pushing the new sample;
`PUSHING` coalesces to `BACKLOGGED`; `BACKLOGGED` does nothing; `FAULT`
moves to `BACKLOGGED` and retries via `PushBacklog`. -/
def HandleUpdate (isJson : Bool) (t : ℚ) (env : PushEnv)
    (store : ℚ → QueryResult) (s : Sensor) : Sensor × Bool :=
  match s.state with
  | .idle =>
    let s := { s with state := .pushing }
    if isJson then PushJson env t s else PushNumeric env t s
  | .pushing => ({ s with state := .backlogged }, false)
  | .backlogged => (s, false)
  | .fault => PushBacklog isJson store { s with state := .backlogged }

/-- One channel's sensor record together with the number of accepted push
submissions whose completion callback has not yet been dispatched
(instrumentation; the C program does not store this count). -/
structure Chan where
  sensor : Sensor
  inFlight : Nat

/-- The event-level semantics of one channel: either a Data Hub update
callback runs, or a push-completion callback runs (which requires an
accepted submission to be outstanding).  The single Legato event loop runs
each handler to completion, so a step is one whole handler execution. -/
inductive Step (isJson : Bool) : Chan → Chan → Prop where
  | update (t : ℚ) (env : PushEnv) (store : ℚ → QueryResult) (c : Chan) :
      Step isJson c
        ⟨(HandleUpdate isJson t env store c.sensor).1,
         c.inFlight + (HandleUpdate isJson t env store c.sensor).2.toNat⟩
  | complete (status : PushStatus) (store : ℚ → QueryResult) (c : Chan)
      (h : 1 ≤ c.inFlight) :
      Step isJson c
        ⟨(HandleAvPushComplete isJson status store c.sensor).1,
         c.inFlight - 1 + (HandleAvPushComplete isJson status store c.sensor).2.toNat⟩

/-- A channel as statically initialized in the C file, with no push
outstanding. -/
def initChan : Chan :=
  ⟨{ lastDeliveredTimestamp := 0, timestamp := 0, state := .idle }, 0⟩

/-- Channel states reachable from start-up. -/
def Reachable (isJson : Bool) (c : Chan) : Prop :=
  Relation.ReflTransGen (Step isJson) initChan c

/-- The Data Hub buffer-query contract (spec section 6): a returned sample is
strictly newer than the timestamp passed to the query. -/
def StoreWf (store : ℚ → QueryResult) : Prop :=
  ∀ x ts env, store x = QueryResult.found ts env → x < ts

/-- `Step` restricted to well-formed environments: buffer queries honour the
newer-than contract and an update event does not carry a timestamp older
than what has already been delivered for the channel. -/
inductive WfStep (isJson : Bool) : Chan → Chan → Prop where
  | update (t : ℚ) (env : PushEnv) (store : ℚ → QueryResult) (c : Chan)
      (ht : c.sensor.lastDeliveredTimestamp ≤ t) (hs : StoreWf store) :
      WfStep isJson c
        ⟨(HandleUpdate isJson t env store c.sensor).1,
         c.inFlight + (HandleUpdate isJson t env store c.sensor).2.toNat⟩
  | complete (status : PushStatus) (store : ℚ → QueryResult) (c : Chan)
      (h : 1 ≤ c.inFlight) (hs : StoreWf store) :
      WfStep isJson c
        ⟨(HandleAvPushComplete isJson status store c.sensor).1,
         c.inFlight - 1 + (HandleAvPushComplete isJson status store c.sensor).2.toNat⟩

/-- Channel states reachable from start-up under well-formed environments. -/
def WfReachable (isJson : Bool) (c : Chan) : Prop :=
  Relation.ReflTransGen (WfStep isJson) initChan c

/-! ### Theorems: aggregate publisher (Part A) -/

/-- C7: for every channel, the first-ever successful reading - taken while
`lastTimeRecorded` is still the unset sentinel `0` - is recorded (the read
value is copied into `lastValueRecorded` and the publish flag raised)
regardless of the result of the channel's threshold predicate.  `recordOk`
reflects the `it->record()` call returning `LE_OK`. -/
theorem first_reading_always_recorded (now : Nat) (env : ItemEnv) (it : ItemState)
    (v : Value) (hsent : it.lastTimeRecorded = 0) (hread : env.readResult = some v)
    (hrec : env.recordOk = true) :
    processItemRead now env it =
      ({ it with lastValueRead := v, lastTimeRead := now, lastValueRecorded := v }, true) := by
  simp [processItemRead, hread, hsent, hrec]

/-- Witness for C7 at a concrete first reading. -/
theorem first_reading_always_recorded_witness :
    processItemRead 1000 ⟨some (.intV 50), true, true⟩
        { kind := .light, lastValueRead := .intV 0, lastValueRecorded := .intV 0,
          lastTimeRead := 0, lastTimeRecorded := 0 } =
      ({ kind := .light, lastValueRead := .intV 50, lastValueRecorded := .intV 50,
         lastTimeRead := 1000, lastTimeRecorded := 0 }, true) :=
  first_reading_always_recorded 1000 ⟨some (.intV 50), true, true⟩
    { kind := .light, lastValueRead := .intV 0, lastValueRecorded := .intV 0,
      lastTimeRead := 0, lastTimeRecorded := 0 } (.intV 50) rfl rfl rfl

/-- C2: for every scalar channel with a prior recorded value (sentinel
absent, `lastTimeRecorded ≠ 0`), the change-detection step of the tick never
records a successful read within the channel's threshold of the last
recorded value (at most 200 raw units for light, 1.0 kPa for pressure,
2.0 °C for temperature), and always records a read strictly beyond the
threshold (given the `it->record()` call returns `LE_OK`). -/
theorem scalar_threshold_decides_recording (now : Nat) (env : ItemEnv) (it : ItemState)
    (hsent : it.lastTimeRecorded ≠ 0) :
    (∀ rec v, it.kind = .light → it.lastValueRecorded = .intV rec →
      env.readResult = some (.intV v) →
      (((v - rec).natAbs ≤ 200 →
          processItemRead now env it =
            ({ it with lastValueRead := .intV v, lastTimeRead := now }, false)) ∧
       (200 < (v - rec).natAbs → env.recordOk = true →
          processItemRead now env it =
            ({ it with lastValueRead := .intV v, lastTimeRead := now,
                       lastValueRecorded := .intV v }, true)))) ∧
    (∀ rec v, it.kind = .pressure → it.lastValueRecorded = .floatV rec →
      env.readResult = some (.floatV v) →
      ((|v - rec| ≤ 1 →
          processItemRead now env it =
            ({ it with lastValueRead := .floatV v, lastTimeRead := now }, false)) ∧
       ((1 : ℚ) < |v - rec| → env.recordOk = true →
          processItemRead now env it =
            ({ it with lastValueRead := .floatV v, lastTimeRead := now,
                       lastValueRecorded := .floatV v }, true)))) ∧
    (∀ rec v, it.kind = .temperature → it.lastValueRecorded = .floatV rec →
      env.readResult = some (.floatV v) →
      ((|v - rec| ≤ 2 →
          processItemRead now env it =
            ({ it with lastValueRead := .floatV v, lastTimeRead := now }, false)) ∧
       ((2 : ℚ) < |v - rec| → env.recordOk = true →
          processItemRead now env it =
            ({ it with lastValueRead := .floatV v, lastTimeRead := now,
                       lastValueRecorded := .floatV v }, true)))) := by
  refine ⟨fun rec v hk hrecd hread => ?_, fun rec v hk hrecd hread => ?_,
    fun rec v hk hrecd hread => ?_⟩ <;>
    constructor <;> intro hd <;>
    simp [processItemRead, hread, hsent, hk, hrecd, thresholdCheck,
      Nat.not_lt.mpr, not_lt.mpr, hd]

/-- Witness for C2: light reading within threshold (Δ = 150) is not
recorded; pressure reading beyond threshold (Δ = 1.1) is recorded. -/
theorem scalar_threshold_decides_recording_witness :
    (processItemRead 2000 ⟨some (.intV 1150), true, true⟩
        { kind := .light, lastValueRead := .intV 1000, lastValueRecorded := .intV 1000,
          lastTimeRead := 1000, lastTimeRecorded := 900 } =
      ({ kind := .light, lastValueRead := .intV 1150, lastValueRecorded := .intV 1000,
         lastTimeRead := 2000, lastTimeRecorded := 900 }, false)) ∧
    (processItemRead 2000 ⟨some (.floatV (1021 / 10)), true, true⟩
        { kind := .pressure, lastValueRead := .floatV 101, lastValueRecorded := .floatV 101,
          lastTimeRead := 1000, lastTimeRecorded := 900 } =
      ({ kind := .pressure, lastValueRead := .floatV (1021 / 10),
         lastValueRecorded := .floatV (1021 / 10),
         lastTimeRead := 2000, lastTimeRecorded := 900 }, true)) := by
  constructor
  · exact ((scalar_threshold_decides_recording 2000 ⟨some (.intV 1150), true, true⟩
      { kind := .light, lastValueRead := .intV 1000, lastValueRecorded := .intV 1000,
        lastTimeRead := 1000, lastTimeRecorded := 900 } (by decide)).1
      1000 1150 rfl rfl rfl).1 (by decide)
  · exact ((scalar_threshold_decides_recording 2000 ⟨some (.floatV (1021 / 10)), true, true⟩
      { kind := .pressure, lastValueRead := .floatV 101, lastValueRecorded := .floatV 101,
        lastTimeRead := 1000, lastTimeRecorded := 900 } (by decide)).2.1
      101 (1021 / 10) rfl rfl rfl).2
      (by rw [abs_of_nonneg (show (0 : ℚ) ≤ 1021 / 10 - 101 by norm_num)]; norm_num) rfl

/-- The threshold-path record step never touches `lastTimeRecorded`
(the loop body contains no assignment to it). -/
theorem processItemRead_lastTimeRecorded (now : Nat) (env : ItemEnv) (it : ItemState) :
    (processItemRead now env it).1.lastTimeRecorded = it.lastTimeRecorded := by
  rcases h : env.readResult with _ | v
  · simp [processItemRead, h]
  · simp only [processItemRead, h]
    split
    · split <;> rfl
    · rfl

/-- A sweep whose `it->record()` call fails changes nothing. -/
theorem sweepItem_record_failed (now : Nat) (it : ItemState) :
    sweepItem now false it = it := by
  unfold sweepItem; split <;> simp

/-- A sweep whose staleness condition does not hold changes nothing. -/
theorem sweepItem_not_stale (now : Nat) (ok : Bool) (it : ItemState)
    (h : ¬(TimeToStale * 1000 < sub64 now it.lastTimeRecorded ∧
        it.lastTimeRecorded < it.lastTimeRead)) :
    sweepItem now ok it = it := by
  unfold sweepItem; split
  · exact absurd (by assumption) h
  · rfl

/-- One tick keeps a sentinel `lastTimeRecorded = 0` for item `i` whenever
the sweep cannot record it this tick (its sweep record fails, or `now` is
within `TimeToStale` of time zero so the staleness age test fails). -/
theorem tick_keeps_sentinel (now : Nat) (envs : Nat → ItemEnv) (pushOk : Bool)
    (s : PubState) (i : Nat)
    (h0 : s.items[i]?.map ItemState.lastTimeRecorded = some 0)
    (hs : (envs i).staleRecordOk = false ∨ sub64 now 0 ≤ TimeToStale * 1000) :
    (sampleTimerHandler now envs pushOk s).1.items[i]?.map
      ItemState.lastTimeRecorded = some 0 := by
  rcases hit : s.items[i]? with _ | it
  · rw [hit] at h0; exact absurd h0 (by simp)
  rw [hit] at h0
  have h0' : it.lastTimeRecorded = 0 := by simpa using h0
  have hfr : (loopStep now s.lastTimePublished (envs i) it).1.lastTimeRecorded = 0 := by
    have h := processItemRead_lastTimeRecorded now (envs i) it
    simpa [loopStep] using h.trans h0'
  have hsw : (sweepItem now (envs i).staleRecordOk
      (loopStep now s.lastTimePublished (envs i) it).1).lastTimeRecorded = 0 := by
    rcases hs with hok | hle
    · rw [hok, sweepItem_record_failed]; exact hfr
    · rw [sweepItem_not_stale]
      · exact hfr
      · rw [hfr]; omega
  unfold sampleTimerHandler loopRun
  dsimp only
  split
  · split
    · simp [List.getElem?_mapIdx, hit, hfr]
    · split <;> simp [List.getElem?_mapIdx, hit, hsw]
  · simp [List.getElem?_mapIdx, hit, hfr]

/-- C10: a successful threshold-triggered record copies the read value into
`lastValueRecorded` and raises the publish flag but leaves the item's
`lastTimeRecorded` unchanged (first two conjuncts); `lastTimeRecorded` is
assigned only by the staleness sweep, so it remains the sentinel `0` across
any run of ticks in which the sweep never records the item - because its
sweep-record call fails or the tick is within `TimeToStale` of time zero -
no matter how many threshold-triggered records those ticks perform (third
conjunct). -/
theorem threshold_record_frame (now : Nat) (env : ItemEnv) (it : ItemState) :
    (processItemRead now env it).1.lastTimeRecorded = it.lastTimeRecorded ∧
    (∀ v, env.readResult = some v → env.recordOk = true →
      (it.lastTimeRecorded = 0 ∨
        thresholdCheck it.kind v it.lastValueRecorded = true) →
      (processItemRead now env it).1.lastValueRecorded = v ∧
      (processItemRead now env it).2 = true) ∧
    (∀ ticks s i, s.items[i]?.map ItemState.lastTimeRecorded = some 0 →
      (∀ t ∈ ticks, ((t : TickInput).envs i).staleRecordOk = false ∨
        sub64 t.now 0 ≤ TimeToStale * 1000) →
      (runTicks ticks s).items[i]?.map ItemState.lastTimeRecorded = some 0) := by
  refine ⟨processItemRead_lastTimeRecorded now env it, ?_, ?_⟩
  · intro v hv hrec hthr
    rcases hthr with h0 | hth
    · simp [processItemRead, hv, hrec, h0]
    · simp [processItemRead, hv, hrec, hth]
  · intro ticks
    induction ticks with
    | nil => intro s i h0 _; simpa [runTicks] using h0
    | cons t rest ih =>
      intro s i h0 hall
      have hstep := tick_keeps_sentinel t.now t.envs t.pushOk s i h0
        (hall t (List.mem_cons_self t rest))
      have : runTicks (t :: rest) s =
          runTicks rest (sampleTimerHandler t.now t.envs t.pushOk s).1 := rfl
      rw [this]
      exact ih (sampleTimerHandler t.now t.envs t.pushOk s).1 i hstep
        (fun u hu => hall u (List.mem_cons_of_mem t hu))

/-- Witness for C10: two ticks that both threshold-record the light item
leave its `lastTimeRecorded` at the sentinel 0. -/
theorem threshold_record_frame_witness :
    (runTicks
        [ ⟨1000, fun _ => ⟨some (.intV 500), true, true⟩, true⟩,
          ⟨2000, fun _ => ⟨some (.intV 900), true, true⟩, true⟩ ]
        { items := initialItems, deferredPublish := false, lastTimePublished := 0 }
      ).items[0]?.map ItemState.lastTimeRecorded = some 0 :=
  (threshold_record_frame 0 ⟨none, false, false⟩
      { kind := .light, lastValueRead := .intV 0, lastValueRecorded := .intV 0,
        lastTimeRead := 0, lastTimeRecorded := 0 }).2.2
    [ ⟨1000, fun _ => ⟨some (.intV 500), true, true⟩, true⟩,
      ⟨2000, fun _ => ⟨some (.intV 900), true, true⟩, true⟩ ]
    { items := initialItems, deferredPublish := false, lastTimePublished := 0 }
    0 (by decide)
    (by
      intro t ht
      simp only [List.mem_cons, List.not_mem_nil, or_false] at ht
      rcases ht with rfl | rfl <;> exact Or.inr (by decide))

/-- Branch characterization of `sampleTimerHandler`: the aggregate push is
attempted exactly when a publish was wanted (fresh or deferred) and the
minimum-interval guard passed; when it is attempted, the final items are the
sweep of the post-loop items, and the schedule fields are updated on push
success and left unchanged on push failure. -/
theorem sampleTimerHandler_spec (now : Nat) (envs : Nat → ItemEnv) (pushOk : Bool)
    (s : PubState) :
    ((sampleTimerHandler now envs pushOk s).2 = true ↔
      ((loopRun now s.lastTimePublished envs s.items).any Prod.snd
          || s.deferredPublish) = true ∧
        ¬ sub64 now s.lastTimePublished < MinIntervalBetweenPublish) ∧
    ((sampleTimerHandler now envs pushOk s).2 = true →
      (sampleTimerHandler now envs pushOk s).1.items =
        ((loopRun now s.lastTimePublished envs s.items).map Prod.fst).mapIdx
          (fun i it => sweepItem now (envs i).staleRecordOk it) ∧
      (pushOk = true →
        (sampleTimerHandler now envs pushOk s).1.lastTimePublished = now ∧
        (sampleTimerHandler now envs pushOk s).1.deferredPublish = false) ∧
      (pushOk = false →
        (sampleTimerHandler now envs pushOk s).1.lastTimePublished
            = s.lastTimePublished ∧
        (sampleTimerHandler now envs pushOk s).1.deferredPublish
            = s.deferredPublish)) := by
  unfold sampleTimerHandler
  dsimp only
  split
  · split
    · simp_all
    · split <;> simp_all
  · simp_all

/-- C8: when the aggregate push is attempted: on success (`LE_OK` from
`le_avdata_PushRecord`), `LastTimePublished` is set to the tick time and
`DeferredPublish` is cleared; on failure both are left unchanged (the
failure is only logged; no retry timer exists). -/
theorem aggregate_push_outcome (now : Nat) (envs : Nat → ItemEnv) (pushOk : Bool)
    (s : PubState) (hpush : (sampleTimerHandler now envs pushOk s).2 = true) :
    (pushOk = true →
      (sampleTimerHandler now envs pushOk s).1.lastTimePublished = now ∧
      (sampleTimerHandler now envs pushOk s).1.deferredPublish = false) ∧
    (pushOk = false →
      (sampleTimerHandler now envs pushOk s).1.lastTimePublished
          = s.lastTimePublished ∧
      (sampleTimerHandler now envs pushOk s).1.deferredPublish
          = s.deferredPublish) :=
  ((sampleTimerHandler_spec now envs pushOk s).2 hpush).2

/-- Witness for C8 at a concrete tick (deferred publish pending, guard
passed, push succeeds). -/
theorem aggregate_push_outcome_witness :
    ((sampleTimerHandler 70000 (fun _ => ⟨none, false, false⟩) true
        { items := [], deferredPublish := true, lastTimePublished := 0 }).1.lastTimePublished
      = 70000) ∧
    ((sampleTimerHandler 70000 (fun _ => ⟨none, false, false⟩) true
        { items := [], deferredPublish := true, lastTimePublished := 0 }).1.deferredPublish
      = false) :=
  (aggregate_push_outcome 70000 (fun _ => ⟨none, false, false⟩) true
    { items := [], deferredPublish := true, lastTimePublished := 0 } (by decide)).1 rfl

/-- C6: immediately before each attempted aggregate push the staleness sweep
runs over the post-loop items: an item whose `lastTimeRecorded` age exceeds
`TimeToStale * 1000` ms and whose `lastTimeRead` is newer than its
`lastTimeRecorded` is force-recorded (threshold bypassed) with its current
`lastValueRead` (given the sweep's `it->record()` succeeds), while an item
not meeting both conditions is left untouched. -/
theorem stale_sweep_before_push (now : Nat) (envs : Nat → ItemEnv) (pushOk : Bool)
    (s : PubState) (hpush : (sampleTimerHandler now envs pushOk s).2 = true) :
    (sampleTimerHandler now envs pushOk s).1.items =
      ((loopRun now s.lastTimePublished envs s.items).map Prod.fst).mapIdx
        (fun i it => sweepItem now (envs i).staleRecordOk it) ∧
    (∀ it : ItemState,
      TimeToStale * 1000 < sub64 now it.lastTimeRecorded →
      it.lastTimeRecorded < it.lastTimeRead →
      sweepItem now true it =
        { it with lastValueRecorded := it.lastValueRead,
                  lastTimeRecorded := it.lastTimeRead }) ∧
    (∀ (ok : Bool) (it : ItemState),
      ¬(TimeToStale * 1000 < sub64 now it.lastTimeRecorded ∧
          it.lastTimeRecorded < it.lastTimeRead) →
      sweepItem now ok it = it) := by
  refine ⟨((sampleTimerHandler_spec now envs pushOk s).2 hpush).1, ?_, ?_⟩
  · intro it h1 h2
    unfold sweepItem
    rw [if_pos ⟨h1, h2⟩, if_pos rfl]
  · intro ok it h
    exact sweepItem_not_stale now ok it h

/-- Witness for C6: a stale light item (recorded 69 s ago, read since) is
force-recorded with its current reading during a tick that pushes. -/
theorem stale_sweep_before_push_witness :
    sweepItem 70000 true
        { kind := .light, lastValueRead := .intV 40, lastValueRecorded := .intV 30,
          lastTimeRead := 69500, lastTimeRecorded := 1000 } =
      { kind := .light, lastValueRead := .intV 40, lastValueRecorded := .intV 40,
        lastTimeRead := 69500, lastTimeRecorded := 69500 } :=
  ((stale_sweep_before_push 70000 (fun _ => ⟨none, false, true⟩) true
      { items := [⟨.light, .intV 40, .intV 30, 69500, 1000⟩],
        deferredPublish := true, lastTimePublished := 0 } (by decide)).2.1
    { kind := .light, lastValueRead := .intV 40, lastValueRecorded := .intV 30,
      lastTimeRead := 69500, lastTimeRecorded := 1000 } (by decide) (by decide))

/-- C1 evidence: the sample-timer handler compares the millisecond quantity
`now - LastTimePublished` against the bare constant `MinIntervalBetweenPublish`
(10), without the `* 1000` scaling used for `MaxIntervalBetweenPublish` and
`TimeToStale`.  Concretely, one second (1000 ms) after a successful publish a
new publish condition is pushed immediately - `DeferredPublish` is not set -
even though the elapsed time is far below `MinIntervalBetweenPublish` seconds
(10000 ms). -/
theorem min_interval_guard_unscaled :
    ((sampleTimerHandler 6000 (fun _ => ⟨some (.intV 1300), true, true⟩) true
        { items := [⟨.light, .intV 1000, .intV 1000, 5000, 0⟩],
          deferredPublish := false, lastTimePublished := 5000 }).2 = true) ∧
    ((sampleTimerHandler 6000 (fun _ => ⟨some (.intV 1300), true, true⟩) true
        { items := [⟨.light, .intV 1000, .intV 1000, 5000, 0⟩],
          deferredPublish := false, lastTimePublished := 5000 }).1.lastTimePublished
      = 6000) ∧
    ((sampleTimerHandler 6000 (fun _ => ⟨some (.intV 1300), true, true⟩) true
        { items := [⟨.light, .intV 1000, .intV 1000, 5000, 0⟩],
          deferredPublish := false, lastTimePublished := 5000 }).1.deferredPublish
      = false) ∧
    sub64 6000 5000 < MinIntervalBetweenPublish * 1000 := by
  refine ⟨?_, ?_, ?_, ?_⟩ <;> decide

/-! ### Theorems: delivery state machine (Part B) -/

/-- The push helper a channel of the given category uses. -/
def pushAny (isJson : Bool) (env : PushEnv) (t : ℚ) (s : Sensor) : Sensor × Bool :=
  if isJson then PushJson env t s else PushNumeric env t s

/-- The sample result a channel of the given category observes. -/
def sampleResult (isJson : Bool) (env : PushEnv) : LeResult :=
  if isJson then pushJsonSample env else pushSample env

/-- Field characterization of the push helpers: the pending timestamp is
stored; the submission is accepted iff the overall result is `LE_OK`; on
acceptance the state is unchanged and on any failure it becomes `FAULT`
(for JSON, `LE_FORMAT_ERROR` also advances `lastDeliveredTimestamp` first);
`lastDeliveredTimestamp` moves only in that discard case. -/
theorem pushAny_fields (isJson : Bool) (env : PushEnv) (t : ℚ) (s : Sensor) :
    (pushAny isJson env t s).1.timestamp = t ∧
    (pushAny isJson env t s).2 = (sampleResult isJson env == .ok) ∧
    ((pushAny isJson env t s).2 = true → (pushAny isJson env t s).1.state = s.state) ∧
    ((pushAny isJson env t s).2 = false → (pushAny isJson env t s).1.state = .fault) ∧
    ((pushAny isJson env t s).1.lastDeliveredTimestamp = s.lastDeliveredTimestamp ∨
      ((pushAny isJson env t s).1.lastDeliveredTimestamp = t ∧
        (pushAny isJson env t s).2 = false)) := by
  cases isJson
  · rcases h : pushSample env with _ | _ | _ | _ | _ | _ <;>
      simp [pushAny, sampleResult, PushNumeric, h]
  · rcases h : pushJsonSample env with _ | _ | _ | _ | _ | _ <;>
      (simp [pushAny, sampleResult, PushJson, h]; try (split <;> simp))

/-- The per-channel structural invariant: at most one accepted push is
outstanding, and none is outstanding while `IDLE` or in `FAULT` (those
states are only entered with nothing in flight). -/
def ChanInv (c : Chan) : Prop :=
  c.inFlight ≤ 1 ∧
    ((c.sensor.state = .idle ∨ c.sensor.state = .fault) → c.inFlight = 0)

/-- A channel with nothing in flight satisfies the invariant. -/
theorem chanInv_zero (s : Sensor) : ChanInv ⟨s, 0⟩ :=
  ⟨Nat.zero_le 1, fun _ => rfl⟩

/-- A push issued from a state that is neither `IDLE` nor `FAULT`, with
nothing else in flight, keeps the invariant. -/
theorem chanInv_pushAny (isJson : Bool) (env : PushEnv) (t : ℚ) (s : Sensor)
    (hni : s.state ≠ .idle) (hnf : s.state ≠ .fault) :
    ChanInv ⟨(pushAny isJson env t s).1, (pushAny isJson env t s).2.toNat⟩ := by
  have hf := pushAny_fields isJson env t s
  rcases hb : (pushAny isJson env t s).2
  · exact chanInv_zero _
  · refine ⟨by simp, fun hst => ?_⟩
    have hstate := hf.2.2.1 hb
    rcases hst with hst | hst <;> rw [hstate] at hst
    · exact absurd hst hni
    · exact absurd hst hnf

/-- `PushBacklog` from a `PUSHING` or `BACKLOGGED` state with nothing else
in flight keeps the invariant. -/
theorem chanInv_pushBacklog (isJson : Bool) (store : ℚ → QueryResult) (s : Sensor)
    (hni : s.state ≠ .idle) (hnf : s.state ≠ .fault) :
    ChanInv ⟨(PushBacklog isJson store s).1, (PushBacklog isJson store s).2.toNat⟩ := by
  unfold PushBacklog
  rcases hq : store s.lastDeliveredTimestamp with ⟨ts, env⟩ | _ | _
  · cases isJson
    · simpa [pushAny] using chanInv_pushAny false env ts s hni hnf
    · simpa [pushAny] using chanInv_pushAny true env ts s hni hnf
  · exact chanInv_zero _
  · exact chanInv_zero _

/-- Every `Step` preserves the structural invariant. -/
theorem step_preserves_chanInv (isJson : Bool) (c c' : Chan)
    (hinv : ChanInv c) (hstep : Step isJson c c') : ChanInv c' := by
  cases hstep with
  | update t env store c =>
    rcases hc : c.sensor.state with _ | _ | _ | _
    · -- idle
      have hz : c.inFlight = 0 := hinv.2 (Or.inl hc)
      have he : HandleUpdate isJson t env store c.sensor =
          pushAny isJson env t { c.sensor with state := .pushing } := by
        simp [HandleUpdate, hc, pushAny]
      rw [hz, he]
      simpa using chanInv_pushAny isJson env t { c.sensor with state := .pushing }
        (by simp) (by simp)
    · -- pushing
      have he : HandleUpdate isJson t env store c.sensor =
          ({ c.sensor with state := .backlogged }, false) := by
        simp [HandleUpdate, hc]
      rw [he]
      exact ⟨by simpa using hinv.1, by simp⟩
    · -- backlogged
      have he : HandleUpdate isJson t env store c.sensor = (c.sensor, false) := by
        simp [HandleUpdate, hc]
      rw [he]
      exact ⟨by simpa using hinv.1, fun hst => by simp [hc] at hst⟩
    · -- fault
      have hz : c.inFlight = 0 := hinv.2 (Or.inr hc)
      have he : HandleUpdate isJson t env store c.sensor =
          PushBacklog isJson store { c.sensor with state := .backlogged } := by
        simp [HandleUpdate, hc]
      rw [hz, he]
      simpa using chanInv_pushBacklog isJson store
        { c.sensor with state := .backlogged } (by simp) (by simp)
  | complete status store c h1 =>
    have hone : c.inFlight = 1 := le_antisymm hinv.1 h1
    have hstate : c.sensor.state = .pushing ∨ c.sensor.state = .backlogged := by
      rcases hc : c.sensor.state with _ | _ | _ | _
      · exact absurd (hinv.2 (Or.inl hc)) (by omega)
      · exact Or.inl rfl
      · exact Or.inr rfl
      · exact absurd (hinv.2 (Or.inr hc)) (by omega)
    cases status with
    | success =>
      rcases hstate with hc | hc
      · have he : HandleAvPushComplete isJson .success store c.sensor =
            ({ c.sensor with lastDeliveredTimestamp := c.sensor.timestamp }, false) := by
          simp [HandleAvPushComplete, hc]
        rw [hone, he]
        exact ⟨by simp, fun hst => by simp [hc] at hst⟩
      · have he : HandleAvPushComplete isJson .success store c.sensor =
            PushBacklog isJson store
              { c.sensor with lastDeliveredTimestamp := c.sensor.timestamp } := by
          simp [HandleAvPushComplete, hc]
        rw [hone, he]
        simpa using chanInv_pushBacklog isJson store
          { c.sensor with lastDeliveredTimestamp := c.sensor.timestamp }
          (by simp [hc]) (by simp [hc])
    | failed =>
      have he : HandleAvPushComplete isJson .failed store c.sensor =
          PushBacklog isJson store c.sensor := rfl
      rw [hone, he]
      have hni : c.sensor.state ≠ .idle := by
        rcases hstate with hc | hc <;> simp [hc]
      have hnf : c.sensor.state ≠ .fault := by
        rcases hstate with hc | hc <;> simp [hc]
      simpa using chanInv_pushBacklog isJson store c.sensor hni hnf

/-- Every reachable channel state satisfies the structural invariant. -/
theorem reachable_chanInv (isJson : Bool) (c : Chan) (h : Reachable isJson c) :
    ChanInv c := by
  induction h with
  | refl => exact chanInv_zero _
  | tail _ hstep ih => exact step_preserves_chanInv isJson _ _ ih hstep

/-- C5: in every reachable channel state at most one accepted push is in
flight, and a new qualifying sample arriving while the channel is `PUSHING`
coalesces to `BACKLOGGED` without issuing a second concurrent push (the
update handler submits nothing, so the in-flight count stays at most one). -/
theorem at_most_one_push_in_flight (isJson : Bool) (c : Chan) (t : ℚ)
    (env : PushEnv) (store : ℚ → QueryResult) (h : Reachable isJson c) :
    c.inFlight ≤ 1 ∧
    (c.sensor.state = .pushing →
      HandleUpdate isJson t env store c.sensor =
        ({ c.sensor with state := .backlogged }, false) ∧
      c.inFlight + (HandleUpdate isJson t env store c.sensor).2.toNat ≤ 1) := by
  have hinv := reachable_chanInv isJson c h
  refine ⟨hinv.1, fun hp => ?_⟩
  have he : HandleUpdate isJson t env store c.sensor =
      ({ c.sensor with state := .backlogged }, false) := by
    simp [HandleUpdate, hp]
  exact ⟨he, by rw [he]; simpa using hinv.1⟩

/-- Witness for C5 at a channel that just accepted its first push (state
`PUSHING`, one push in flight, reached by one update step from start-up). -/
theorem at_most_one_push_in_flight_witness :
    HandleUpdate false 2 ⟨true, .ok, .ok⟩ (fun _ => .notFound)
        { lastDeliveredTimestamp := 0, timestamp := 1, state := .pushing } =
      ({ lastDeliveredTimestamp := 0, timestamp := 1, state := .backlogged }, false) :=
  ((at_most_one_push_in_flight false
      ⟨{ lastDeliveredTimestamp := 0, timestamp := 1, state := .pushing }, 1⟩ 2
      ⟨true, .ok, .ok⟩ (fun _ => .notFound)
      (Relation.ReflTransGen.single
        (Step.update 1 ⟨true, .ok, .ok⟩ (fun _ => .notFound) initChan))).2 rfl).1

/-- A well-formed step is in particular a step. -/
theorem wfStep_to_step (isJson : Bool) (c c' : Chan) (h : WfStep isJson c c') :
    Step isJson c c' := by
  cases h with
  | update t env store c ht hs => exact Step.update t env store c
  | complete status store c h1 hs => exact Step.complete status store c h1

/-- Invariant for delivery monotonicity: the structural invariant plus,
whenever a push is in flight, its pending timestamp is no older than the
delivered one. -/
def MonoInv (c : Chan) : Prop :=
  ChanInv c ∧
    (1 ≤ c.inFlight →
      c.sensor.lastDeliveredTimestamp ≤ c.sensor.timestamp)

/-- A push of a sample no older than the delivered timestamp never moves
`lastDeliveredTimestamp` backwards, and an accepted submission records a
pending timestamp at least the delivered one. -/
theorem pushAny_mono (isJson : Bool) (env : PushEnv) (t : ℚ) (s : Sensor)
    (ht : s.lastDeliveredTimestamp ≤ t) :
    s.lastDeliveredTimestamp ≤ (pushAny isJson env t s).1.lastDeliveredTimestamp ∧
    ((pushAny isJson env t s).2 = true →
      (pushAny isJson env t s).1.lastDeliveredTimestamp ≤
        (pushAny isJson env t s).1.timestamp) := by
  have hf := pushAny_fields isJson env t s
  rcases hf.2.2.2.2 with hsame | ⟨hadv, hfail⟩
  · refine ⟨le_of_eq hsame.symm, fun hb => ?_⟩
    rw [hsame, hf.1]
    exact ht
  · exact ⟨hadv.symm ▸ ht, fun hb => absurd hb (by rw [hfail]; simp)⟩

/-- A backlog-drain call against a well-formed store never moves
`lastDeliveredTimestamp` backwards, and any accepted submission it makes
has a pending timestamp at least the delivered one. -/
theorem pushBacklog_mono (isJson : Bool) (store : ℚ → QueryResult) (s : Sensor)
    (hw : StoreWf store) :
    s.lastDeliveredTimestamp ≤ (PushBacklog isJson store s).1.lastDeliveredTimestamp ∧
    ((PushBacklog isJson store s).2 = true →
      (PushBacklog isJson store s).1.lastDeliveredTimestamp ≤
        (PushBacklog isJson store s).1.timestamp) := by
  unfold PushBacklog
  rcases hq : store s.lastDeliveredTimestamp with ⟨ts, env⟩ | _ | _
  · have hts : s.lastDeliveredTimestamp < ts := hw _ _ _ hq
    cases isJson
    · simpa [pushAny] using pushAny_mono false env ts s (le_of_lt hts)
    · simpa [pushAny] using pushAny_mono true env ts s (le_of_lt hts)
  · simp
  · simp

/-- One well-formed step preserves `MonoInv` and never decreases
`lastDeliveredTimestamp`. -/
theorem wfStep_mono (isJson : Bool) (c c' : Chan) (hinv : MonoInv c)
    (hstep : WfStep isJson c c') :
    MonoInv c' ∧
      c.sensor.lastDeliveredTimestamp ≤ c'.sensor.lastDeliveredTimestamp := by
  have hchan : ChanInv c' :=
    step_preserves_chanInv isJson c c' hinv.1 (wfStep_to_step isJson c c' hstep)
  cases hstep with
  | update t env store c ht hs =>
    refine ⟨⟨hchan, ?_⟩, ?_⟩ <;> rcases hc : c.sensor.state with _ | _ | _ | _
    · -- idle, pending bound
      intro hfl
      have he : HandleUpdate isJson t env store c.sensor =
          pushAny isJson env t { c.sensor with state := .pushing } := by
        simp [HandleUpdate, hc, pushAny]
      have hz : c.inFlight = 0 := hinv.1.2 (Or.inl hc)
      rw [he] at hfl ⊢
      rw [hz] at hfl
      have hb : (pushAny isJson env t { c.sensor with state := .pushing }).2 = true := by
        rcases hb : (pushAny isJson env t { c.sensor with state := .pushing }).2
        · rw [hb] at hfl; simp at hfl
        · rfl
      exact (pushAny_mono isJson env t { c.sensor with state := .pushing } ht).2 hb
    · intro hfl
      have he : HandleUpdate isJson t env store c.sensor =
          ({ c.sensor with state := .backlogged }, false) := by
        simp [HandleUpdate, hc]
      rw [he]
      exact hinv.2 (by simpa [he] using hfl)
    · intro hfl
      have he : HandleUpdate isJson t env store c.sensor = (c.sensor, false) := by
        simp [HandleUpdate, hc]
      rw [he]
      exact hinv.2 (by simpa [he] using hfl)
    · intro hfl
      have he : HandleUpdate isJson t env store c.sensor =
          PushBacklog isJson store { c.sensor with state := .backlogged } := by
        simp [HandleUpdate, hc]
      have hz : c.inFlight = 0 := hinv.1.2 (Or.inr hc)
      rw [he] at hfl ⊢
      rw [hz] at hfl
      have hb : (PushBacklog isJson store { c.sensor with state := .backlogged }).2 = true := by
        rcases hb : (PushBacklog isJson store { c.sensor with state := .backlogged }).2
        · rw [hb] at hfl; simp at hfl
        · rfl
      exact (pushBacklog_mono isJson store { c.sensor with state := .backlogged } hs).2 hb
    · -- idle, monotone
      have he : HandleUpdate isJson t env store c.sensor =
          pushAny isJson env t { c.sensor with state := .pushing } := by
        simp [HandleUpdate, hc, pushAny]
      rw [he]
      exact (pushAny_mono isJson env t { c.sensor with state := .pushing } ht).1
    · have he : HandleUpdate isJson t env store c.sensor =
          ({ c.sensor with state := .backlogged }, false) := by
        simp [HandleUpdate, hc]
      rw [he]
    · have he : HandleUpdate isJson t env store c.sensor = (c.sensor, false) := by
        simp [HandleUpdate, hc]
      rw [he]
    · have he : HandleUpdate isJson t env store c.sensor =
          PushBacklog isJson store { c.sensor with state := .backlogged } := by
        simp [HandleUpdate, hc]
      rw [he]
      exact (pushBacklog_mono isJson store { c.sensor with state := .backlogged } hs).1
  | complete status store c h1 hs =>
    have hone : c.inFlight = 1 := le_antisymm hinv.1.1 h1
    have hts : c.sensor.lastDeliveredTimestamp ≤ c.sensor.timestamp :=
      hinv.2 h1
    cases status with
    | success =>
      rcases hd : decide
          (({ c.sensor with lastDeliveredTimestamp := c.sensor.timestamp} : Sensor).state
            = SensorState.backlogged) with _ | _
      · have hc : c.sensor.state ≠ .backlogged := by simpa using of_decide_eq_false hd
        have he : HandleAvPushComplete isJson .success store c.sensor =
            ({ c.sensor with lastDeliveredTimestamp := c.sensor.timestamp }, false) := by
          simp [HandleAvPushComplete, hc]
        refine ⟨⟨hchan, ?_⟩, ?_⟩
        · intro hfl
          rw [he] at hfl
          rw [hone] at hfl
          simp at hfl
        · rw [he]
          exact hts
      · have hc : c.sensor.state = .backlogged := by simpa using of_decide_eq_true hd
        have he : HandleAvPushComplete isJson .success store c.sensor =
            PushBacklog isJson store
              { c.sensor with lastDeliveredTimestamp := c.sensor.timestamp } := by
          simp [HandleAvPushComplete, hc]
        have hmono := pushBacklog_mono isJson store
          { c.sensor with lastDeliveredTimestamp := c.sensor.timestamp } hs
        refine ⟨⟨hchan, ?_⟩, ?_⟩
        · intro hfl
          rw [he] at hfl ⊢
          rw [hone] at hfl
          have hb : (PushBacklog isJson store
              { c.sensor with lastDeliveredTimestamp := c.sensor.timestamp }).2 = true := by
            rcases hb : (PushBacklog isJson store
                { c.sensor with lastDeliveredTimestamp := c.sensor.timestamp }).2
            · rw [hb] at hfl; simp at hfl
            · rfl
          exact hmono.2 hb
        · rw [he]
          exact le_trans hts hmono.1
    | failed =>
      have he : HandleAvPushComplete isJson .failed store c.sensor =
          PushBacklog isJson store c.sensor := rfl
      have hmono := pushBacklog_mono isJson store c.sensor hs
      refine ⟨⟨hchan, ?_⟩, ?_⟩
      · intro hfl
        rw [he] at hfl ⊢
        rw [hone] at hfl
        have hb : (PushBacklog isJson store c.sensor).2 = true := by
          rcases hb : (PushBacklog isJson store c.sensor).2
          · rw [hb] at hfl; simp at hfl
          · rfl
        exact hmono.2 hb
      · rw [he]
        exact hmono.1

/-- Every channel state reachable under well-formed environments satisfies
`MonoInv`. -/
theorem wfReachable_monoInv (isJson : Bool) (c : Chan) (h : WfReachable isJson c) :
    MonoInv c := by
  induction h with
  | refl => exact ⟨chanInv_zero _, fun h1 => by simp [initChan] at h1⟩
  | tail _ hstep ih => exact (wfStep_mono isJson _ _ ih hstep).1

/-- C9: along every well-formed run of sensor-update and push-completion
events (buffer queries return strictly newer samples, update events are not
older than what was already delivered), a channel's
`lastDeliveredTimestamp` is monotonically non-decreasing. -/
theorem lastDelivered_monotone (isJson : Bool) (c c' : Chan)
    (hreach : WfReachable isJson c)
    (hsteps : Relation.ReflTransGen (WfStep isJson) c c') :
    c.sensor.lastDeliveredTimestamp ≤ c'.sensor.lastDeliveredTimestamp := by
  induction hsteps with
  | refl => exact le_rfl
  | tail h1 h2 ih =>
    exact le_trans ih
      (wfStep_mono isJson _ _ (wfReachable_monoInv isJson _ (hreach.trans h1)) h2).2

/-- Witness for C9: one well-formed update step from start-up does not
decrease the delivered timestamp. -/
theorem lastDelivered_monotone_witness :
    initChan.sensor.lastDeliveredTimestamp ≤
      (⟨{ lastDeliveredTimestamp := 0, timestamp := 1, state := .pushing }, 1⟩ :
        Chan).sensor.lastDeliveredTimestamp :=
  lastDelivered_monotone false initChan
    ⟨{ lastDeliveredTimestamp := 0, timestamp := 1, state := .pushing }, 1⟩
    Relation.ReflTransGen.refl
    (Relation.ReflTransGen.single
      (WfStep.update 1 ⟨true, .ok, .ok⟩ (fun _ => .notFound) initChan
        (by norm_num [initChan])
        (fun x ts env h => QueryResult.noConfusion h)))

/-- C3 counterexample: a successful completion received in state `PUSHING`
leaves the channel in `PUSHING` - it does not transition to `IDLE` as the
claim states (the success branch of `HandleAvPushComplete` only checks for
`BACKLOGGED`) - and a `BACKLOGGED` channel that finds a further backlog
sample pushes it and remains `BACKLOGGED`, not `PUSHING`. -/
theorem push_complete_pushing_stays_pushing :
    ((HandleAvPushComplete false .success (fun _ => .notFound)
        { lastDeliveredTimestamp := 0, timestamp := 5, state := .pushing }).1.state
      = .pushing) ∧
    ((HandleAvPushComplete false .success (fun _ => .notFound)
        { lastDeliveredTimestamp := 0, timestamp := 5, state := .pushing }).1.state
      ≠ .idle) ∧
    ((HandleAvPushComplete false .success (fun _ => .found 7 ⟨true, .ok, .ok⟩)
        { lastDeliveredTimestamp := 0, timestamp := 5, state := .backlogged }).1.state
      = .backlogged) ∧
    ((HandleAvPushComplete false .success (fun _ => .found 7 ⟨true, .ok, .ok⟩)
        { lastDeliveredTimestamp := 0, timestamp := 5, state := .backlogged }).1.state
      ≠ .pushing) := by
  refine ⟨by decide, by decide, by decide, by decide⟩

/-- C3 (amended): on a successful push completion, `lastDeliveredTimestamp`
is set to the pending timestamp.  A `BACKLOGGED` channel queries the
buffered store for the oldest sample newer than the (new) delivered
timestamp: if none is pending it transitions to `IDLE`; if one is found and
its submission is accepted, the sample is pushed and the channel remains
`BACKLOGGED`.  A `PUSHING` channel stays `PUSHING` (the handler does not
return it to `IDLE`). -/
theorem push_complete_success_spec (isJson : Bool) (store : ℚ → QueryResult)
    (s : Sensor) :
    (s.state = .pushing →
      HandleAvPushComplete isJson .success store s =
        ({ s with lastDeliveredTimestamp := s.timestamp }, false)) ∧
    (s.state = .backlogged →
      (store s.timestamp = .notFound →
        (HandleAvPushComplete isJson .success store s).1 =
          { s with lastDeliveredTimestamp := s.timestamp, state := .idle }) ∧
      (∀ ts env, store s.timestamp = .found ts env →
        sampleResult isJson env = .ok →
        (HandleAvPushComplete isJson .success store s).1 =
          { s with lastDeliveredTimestamp := s.timestamp, timestamp := ts } ∧
        (HandleAvPushComplete isJson .success store s).2 = true)) := by
  constructor
  · intro hp
    simp [HandleAvPushComplete, hp]
  · intro hb
    have he : HandleAvPushComplete isJson .success store s =
        PushBacklog isJson store { s with lastDeliveredTimestamp := s.timestamp } := by
      simp [HandleAvPushComplete, hb]
    constructor
    · intro hq
      rw [he]
      unfold PushBacklog
      simp only [hq]
    · intro ts env hq hok
      rw [he]
      unfold PushBacklog
      simp only [hq]
      have hf := pushAny_fields isJson env ts { s with lastDeliveredTimestamp := s.timestamp }
      have hacc : (pushAny isJson env ts { s with lastDeliveredTimestamp := s.timestamp }).2
          = true := by
        rw [hf.2.1, hok]; rfl
      have hst := hf.2.2.1 hacc
      have hld : (pushAny isJson env ts
          { s with lastDeliveredTimestamp := s.timestamp }).1.lastDeliveredTimestamp
            = s.timestamp := by
        rcases hf.2.2.2.2 with hsame | ⟨_, hfail⟩
        · exact hsame
        · rw [hacc] at hfail; cases hfail
      constructor
      · show (pushAny isJson env ts { s with lastDeliveredTimestamp := s.timestamp }).1 = _
        cases hsens : (pushAny isJson env ts
            { s with lastDeliveredTimestamp := s.timestamp }).1 with
        | mk ld pend st =>
          have h1 : pend = ts := by
            have h := hf.1; rw [hsens] at h; exact h
          have h2 : ld = s.timestamp := by
            rw [hsens] at hld; exact hld
          have h3 : st = s.state := by
            rw [hsens] at hst; exact hst
          rw [h1, h2, h3]
      · show (pushAny isJson env ts
            { s with lastDeliveredTimestamp := s.timestamp }).2 = true
        exact hacc

/-- Witness for C3 (amended) at a concrete backlogged channel whose store
holds a further sample. -/
theorem push_complete_success_spec_witness :
    ((HandleAvPushComplete false .success (fun _ => .found 7 ⟨true, .ok, .ok⟩)
        { lastDeliveredTimestamp := 0, timestamp := 5, state := .backlogged }).1 =
      { lastDeliveredTimestamp := 5, timestamp := 7, state := .backlogged }) ∧
    ((HandleAvPushComplete false .success (fun _ => .found 7 ⟨true, .ok, .ok⟩)
        { lastDeliveredTimestamp := 0, timestamp := 5, state := .backlogged }).2
      = true) :=
  ((push_complete_success_spec false (fun _ => .found 7 ⟨true, .ok, .ok⟩)
      { lastDeliveredTimestamp := 0, timestamp := 5, state := .backlogged }).2
    rfl).2 7 ⟨true, .ok, .ok⟩ rfl rfl

/-- C4 evidence: an undecodable JSON sample makes the decode helpers
(`PushAcceleration` etc. via `ExtractNumber`) return `LE_FAULT`, not
`LE_FORMAT_ERROR`, so `PushJson`'s malformed-discard branch is not taken:
`lastDeliveredTimestamp` is left unchanged (not advanced past the sample),
the channel enters `FAULT`, and every later sensor update retries exactly
the same buffered sample and fails the same way. -/
theorem malformed_sample_not_skipped :
    pushJsonSample ⟨false, .ok, .ok⟩ = .fault ∧
    pushJsonSample ⟨false, .ok, .ok⟩ ≠ .formatError ∧
    ((PushJson ⟨false, .ok, .ok⟩ 7
        { lastDeliveredTimestamp := 3, timestamp := 3, state := .backlogged }).1 =
      { lastDeliveredTimestamp := 3, timestamp := 7, state := .fault }) ∧
    ((HandleUpdate true 9 ⟨true, .ok, .ok⟩ (fun _ => .found 7 ⟨false, .ok, .ok⟩)
        { lastDeliveredTimestamp := 3, timestamp := 7, state := .fault }).1 =
      { lastDeliveredTimestamp := 3, timestamp := 7, state := .fault }) := by
  refine ⟨by decide, by decide, by decide, by decide⟩
